import Mathlib

/-!
# Verification of the Callflow_AI call-session scheduler and webhook pipeline

Shallow embedding of the repository's scheduling core (`src/backend/scheduler.py`)
and of the reply post-processing pipeline of the webhook handler
(`src/voice_server.py`).  Python strings are modelled as `List Char`,
`datetime` values at minute precision (the only precision the code compares at
for on-the-hour slots), the persisted meetings file as an in-memory list of
entries, and the Python standard library's `json` module as an abstract
parsing function passed as a parameter.
-/

namespace Callflow

/-- A Python string, modelled as its list of characters. -/
abbrev Str := List Char

/-! ## Calendar model (Python `datetime`, minute precision) -/

/-- A Python `datetime` at minute precision: year, month, day, hour, minute.
The code (`scheduler.py`, `voice_server.py`) only ever compares `datetime.now()`
against on-the-hour slot datetimes, for which minute precision gives the same
outcome as Python's microsecond precision. -/
structure DateTime where
  y : Nat
  m : Nat
  d : Nat
  hh : Nat
  mm : Nat
deriving DecidableEq, Repr

/-- Gregorian leap-year rule (as used by Python's `datetime`/`calendar`). -/
def isLeap (y : Nat) : Bool :=
  (y % 4 == 0 && y % 100 != 0) || y % 400 == 0

/-- Number of days in a month of a given year. -/
def daysInMonth (y m : Nat) : Nat :=
  if m = 2 then (if isLeap y then 29 else 28)
  else if m = 4 ∨ m = 6 ∨ m = 9 ∨ m = 11 then 30
  else 31

/-- A `DateTime` that Python's `datetime` constructor would accept
(year at least 1, real month/day, hour below 24, minute below 60). -/
def DateTime.Valid (t : DateTime) : Prop :=
  1 ≤ t.y ∧ 1 ≤ t.m ∧ t.m ≤ 12 ∧ 1 ≤ t.d ∧ t.d ≤ daysInMonth t.y t.m ∧
    t.hh < 24 ∧ t.mm < 60

instance (t : DateTime) : Decidable t.Valid := by
  unfold DateTime.Valid; infer_instance

/-- Injective numeric encoding of a `DateTime`; on valid datetimes its order
is exactly Python's lexicographic `datetime` order, so the code's `<=` / `<`
comparisons are modelled by comparing encodings. -/
def DateTime.enc (t : DateTime) : Nat :=
  t.mm + 60 * (t.hh + 24 * (t.d + 32 * (t.m + 13 * t.y)))

/-- `a <= b` on Python datetimes (via the order-faithful encoding). -/
def dtLe (a b : DateTime) : Prop := a.enc ≤ b.enc

/-- `a < b` on Python datetimes. -/
def dtLt (a b : DateTime) : Prop := a.enc < b.enc

instance (a b : DateTime) : Decidable (dtLe a b) := by unfold dtLe; infer_instance

instance (a b : DateTime) : Decidable (dtLt a b) := by unfold dtLt; infer_instance

/-- The calendar successor day, keeping the time of day
(models `day + timedelta(days=1)` restricted to the date part). -/
def nextDay (t : DateTime) : DateTime :=
  if t.d < daysInMonth t.y t.m then { t with d := t.d + 1 }
  else if t.m < 12 then { t with m := t.m + 1, d := 1 }
  else { t with y := t.y + 1, m := 1, d := 1 }

/-- `now + timedelta(days=n)` (time of day preserved). -/
def addDays (t : DateTime) (n : Nat) : DateTime :=
  nextDay^[n] t

/-- Sakamoto day-of-week month offsets (month 1..12). -/
def sakOffset (m : Nat) : Nat :=
  [0, 0, 3, 2, 5, 0, 3, 5, 1, 4, 6, 2, 4].getD m 0

/-- Day of week in Python's convention (`Monday = 0`, ..., `Sunday = 6`),
computed by Sakamoto's formula; models `datetime.weekday()`. -/
def weekday (t : DateTime) : Nat :=
  let y' := if t.m < 3 then t.y - 1 else t.y
  (y' + y' / 4 - y' / 100 + y' / 400 + sakOffset t.m + t.d + 6) % 7

/-- `datetime.combine(day.date(), time(hour, 0))`. -/
def combine (day : DateTime) (hour : Nat) : DateTime :=
  { y := day.y, m := day.m, d := day.d, hh := hour, mm := 0 }

/-- `candidate.replace(hour=h, minute=mi, second=0, microsecond=0)`. -/
def replaceTime (t : DateTime) (h mi : Nat) : DateTime :=
  { t with hh := h, mm := mi }

/-! ## Decimal digit rendering and reading -/

/-- The decimal digit character for `n % 10`-sized values. -/
def digitChar (n : Nat) : Char :=
  match n with
  | 0 => '0' | 1 => '1' | 2 => '2' | 3 => '3' | 4 => '4'
  | 5 => '5' | 6 => '6' | 7 => '7' | 8 => '8' | _ => '9'

/-- The numeric value of an ASCII decimal digit character, if any
(models the character class `\d` of the CPython `re`/`strptime` patterns
at the ASCII inputs the code produces and consumes). -/
def digitVal? (c : Char) : Option Nat :=
  if c = '0' then some 0 else if c = '1' then some 1 else if c = '2' then some 2
  else if c = '3' then some 3 else if c = '4' then some 4 else if c = '5' then some 5
  else if c = '6' then some 6 else if c = '7' then some 7 else if c = '8' then some 8
  else if c = '9' then some 9 else none

/-- Whether a character is an ASCII decimal digit. -/
def isDigitCh (c : Char) : Bool := (digitVal? c).isSome

/-- Two-digit zero-padded rendering (`%m`, `%d`, `%H`, `%M`). -/
def pad2 (n : Nat) : Str := [digitChar (n / 10 % 10), digitChar (n % 10)]

/-- Four-digit zero-padded rendering (`%Y`). -/
def pad4 (n : Nat) : Str :=
  [digitChar (n / 1000 % 10), digitChar (n / 100 % 10), digitChar (n / 10 % 10),
    digitChar (n % 10)]

/-- `slot_dt.strftime("%Y-%m-%d %H:%M")`. -/
def fmtSlot (t : DateTime) : Str :=
  pad4 t.y ++ '-' :: (pad2 t.m ++ '-' :: (pad2 t.d ++ ' ' :: (pad2 t.hh ++ ':' :: pad2 t.mm)))

/-- Greedily read up to `max` leading decimal digits, with their count. -/
def readDigits : Nat → Str → Nat → Nat → Nat × Str × Nat
  | 0, s, acc, cnt => (acc, s, cnt)
  | _ + 1, [], acc, cnt => (acc, [], cnt)
  | mx + 1, c :: cs, acc, cnt =>
    match digitVal? c with
    | some v => readDigits mx cs (acc * 10 + v) (cnt + 1)
    | none => (acc, c :: cs, cnt)

/-- Read between 1 and `max` leading decimal digits (greedy), returning the
value and the rest of the string; `none` if no leading digit.  This is the
behaviour of the greedy `\d{1,max}` groups of CPython's `strptime` regex,
whose following pattern element is always a non-digit literal. -/
def readNum (max : Nat) (s : Str) : Option (Nat × Str) :=
  let r := readDigits max s 0 0
  if r.2.2 = 0 then none else some (r.1, r.2.1)

/-- `datetime.strptime(slot_str, "%Y-%m-%d %H:%M")`, returning `none` where
Python raises `ValueError`: models CPython's `_strptime` regex (greedy
`\d{1,4}` year, `\d{1,2}` month/day/hour/minute fields, literal separators,
full-string consumption) followed by the `datetime` constructor's range
validation. -/
def parseSlot (s : Str) : Option DateTime :=
  match readNum 4 s with
  | none => none
  | some (y, r1) =>
    match r1 with
    | '-' :: r2 =>
      match readNum 2 r2 with
      | none => none
      | some (m, r3) =>
        match r3 with
        | '-' :: r4 =>
          match readNum 2 r4 with
          | none => none
          | some (d, r5) =>
            match r5 with
            | ' ' :: r6 =>
              match readNum 2 r6 with
              | none => none
              | some (hh, r7) =>
                match r7 with
                | ':' :: r8 =>
                  match readNum 2 r8 with
                  | none => none
                  | some (mm, r9) =>
                    if r9 = [] then
                      let t : DateTime := ⟨y, m, d, hh, mm⟩
                      if t.Valid then some t else none
                    else none
                | _ => none
            | _ => none
        | _ => none
    | _ => none

/-! ## JSON values (results of the standard library's `json` module)

The repository calls the Python standard library's `json.load`/`json.loads`;
those are external to the repository, so parsing is abstracted as a function
parameter, while the parsed value space is modelled concretely. -/

/-- A parsed JSON value (numbers modelled as integers; no claim inspects a
numeric payload field). -/
inductive Json where
  | null
  | bool (b : Bool)
  | num (n : Int)
  | str (s : Str)
  | arr (xs : List Json)
  | obj (fields : List (Str × Json))

/-- Dictionary key lookup (`payload["k"]` / `"k" in payload`). -/
def Json.get (j : Json) (k : Str) : Option Json :=
  match j with
  | .obj fs => fs.lookup k
  | _ => none

/-- Python truth-value testing (`if not slot:`) on a JSON-derived value. -/
def Json.falsy (j : Json) : Bool :=
  match j with
  | .null => true
  | .bool b => !b
  | .num n => n == 0
  | .str s => s.isEmpty
  | .arr xs => xs.isEmpty
  | .obj fs => fs.isEmpty

/-- The string carried by a JSON string value, if it is one. -/
def Json.asStr (j : Json) : Option Str :=
  match j with
  | .str s => some s
  | _ => none

/-! ## `src/backend/scheduler.py` -/

/-- A record of the meetings ledger (`meetings_log.json` entry).  Fields are
the keys the code reads or writes; an absent or non-string value is `none`
(every read of these keys either checks `isinstance(..., str)` or treats the
value opaquely). -/
structure Entry where
  slot : Option Str := none
  call_sid : Option Str := none
  name : Option Str := none
  email : Option Str := none
  phone : Option Str := none
  notes : Option Str := none
  logged_at : Option Str := none
  pending_name_extraction : Bool := false
deriving DecidableEq, Repr

/-- The in-memory content of the meetings ledger file.  `load_meetings`
followed by `write_meetings` round-trips the list, so the stateful scheduler
operations are modelled as functions of this list. -/
abbrev Ledger := List Entry

/-- `append_meeting(entry)`: load, append one record, write back. -/
def append_meeting (e : Entry) (L : Ledger) : Ledger := L ++ [e]

/-- `get_booked_slots()`: the `slot` field of every entry holding a string. -/
def get_booked_slots (L : Ledger) : List Str := L.filterMap (·.slot)

/-- The weekday filter of `generate_available_slots` / `is_slot_available`:
`weekday in {6, 0, 1, 2, 3}` (Sunday through Thursday in Python numbering). -/
def allowedWeekdays : List Nat := [6, 0, 1, 2, 3]

/-- The inner hour loop of `generate_available_slots` for one allowed day:
`for hour in range(8, 16)`, skipping slots at or before `now` and slots in
the booked set. -/
def slotsForDay (booked : List Str) (now day : DateTime) : List Str :=
  (List.range 8).filterMap (fun i =>
    let slot_dt := combine day (8 + i)
    if dtLe slot_dt now then none
    else
      let slot_str := fmtSlot slot_dt
      if slot_str ∈ booked then none else some slot_str)

/-- `generate_available_slots(booked, days)` evaluated at current time `now`:
for every day offset below `days`, keep allowed weekdays and collect that
day's future unbooked on-the-hour slots, in order. -/
def generate_available_slots (booked : List Str) (days : Nat) (now : DateTime) :
    List Str :=
  ((List.range days).map (fun offset =>
    let day := addDays now offset
    if weekday day ∈ allowedWeekdays then slotsForDay booked now day else [])).flatten

/-- `is_slot_available(slot_str, days)` evaluated against ledger `L` at
current time `now`: parse, reject past / disallowed weekday / hour outside
`[8, 15]`, then require membership in the freshly generated slot list. -/
def is_slot_available (s : Str) (L : Ledger) (now : DateTime) (days : Nat := 14) :
    Bool :=
  match parseSlot s with
  | none => false
  | some parsed =>
    if dtLe parsed now then false
    else if weekday parsed ∉ allowedWeekdays then false
    else if ¬ (8 ≤ parsed.hh ∧ parsed.hh ≤ 15) then false
    else s ∈ generate_available_slots (get_booked_slots L) days now

/-- The availability-check phase of `book_slot` (its read of the ledger
file via `is_slot_available` → `get_booked_slots` → `load_meetings`). -/
def bookCheck (s : Str) (L : Ledger) (now : DateTime) : Bool :=
  is_slot_available s L now 14

/-- The append phase of `book_slot` (its `append_meeting` call: re-load the
ledger file and write it back with the timestamped entry appended).  `ts` is
the server timestamp string `datetime.utcnow().isoformat()`. -/
def bookAppendPhase (e : Entry) (ts : Str) (L : Ledger) : Ledger :=
  append_meeting { e with logged_at := some ts } L

/-- `book_slot(entry)` run atomically (no interleaved ledger writer):
reject a missing/non-string `slot`, reject an unavailable slot without
mutation, otherwise append the entry with the server timestamp `ts`. -/
def book_slot (e : Entry) (L : Ledger) (now : DateTime) (ts : Str) :
    Bool × Ledger :=
  match e.slot with
  | none => (false, L)
  | some s =>
    if bookCheck s L now then (true, bookAppendPhase e ts L)
    else (false, L)

/-- `update_meeting(slot, call_sid, updates)`: merge `updates` into every
entry matching `slot` (and `call_sid` when given); report whether any entry
matched (and was rewritten).  The Python dict-merge `e.update(updates)` is
modelled by an update function (`some id` models the empty dict `{}`, the
only value the repository passes). -/
def update_meeting (slot : Str) (call_sid : Option Str)
    (updates : Option (Entry → Entry)) (L : Ledger) : Bool × Ledger :=
  match updates with
  | none => (false, L)
  | some f =>
    let hits := fun e : Entry =>
      e.slot = some slot ∧ (call_sid = none ∨ e.call_sid = call_sid)
    let changed := L.any (fun e => decide (hits e))
    (changed, L.map (fun e => if hits e then f e else e))

/-- The Python exception classes that can arise inside `load_meetings`. -/
inductive PyExc where
  | osError
  | jsonDecodeError
  | unicodeDecodeError
  | recursionError
deriving DecidableEq, Repr

/-- The classes caught by `except (json.JSONDecodeError, OSError)` at
`scheduler.py` line 24.  `UnicodeDecodeError` is a `ValueError` but not a
`JSONDecodeError`, and `RecursionError` is neither, so both fall through. -/
def caughtByLoad (e : PyExc) : Bool :=
  match e with
  | PyExc.jsonDecodeError => true
  | PyExc.osError => true
  | _ => false

/-- `load_meetings()` at file level, returning `.error e` where the Python
function lets exception `e` propagate to the caller:
`file = none` models a missing file (`mkdirResult` is the outcome of the
`mkdir` at line 17, which sits outside the try/except, so its `OSError`
propagates); `some (.error e)` an `open`/`handle.read` that raised `e` —
`OSError`, or `UnicodeDecodeError` when the file's bytes are not valid
UTF-8 (raised by the text handle's read inside `json.load`);
`some (.ok s)` the file's decoded text.  `jload` models `json.load` on that
text, raising `JSONDecodeError` on malformed JSON (an empty file included)
or `RecursionError` on deeply nested input.  Caught classes degrade to
`[]`; a parse to a non-list value falls through to `[]`. -/
def load_meetings_file (mkdirResult : Option PyExc)
    (file : Option (Except PyExc Str)) (jload : Str → Except PyExc Json) :
    Except PyExc (List Json) :=
  match file with
  | none =>
    (match mkdirResult with
     | some e => Except.error e
     | none => Except.ok [])
  | some (Except.error e) =>
    if caughtByLoad e then Except.ok [] else Except.error e
  | some (Except.ok s) =>
    match jload s with
    | Except.error e => if caughtByLoad e then Except.ok [] else Except.error e
    | Except.ok (Json.arr xs) => Except.ok xs
    | Except.ok _ => Except.ok []

/-! ## Python string operations used by `src/voice_server.py` -/

/-- Python `\s` (ASCII): space, tab, newline, carriage return, form feed,
vertical tab. -/
def isPySpace (c : Char) : Bool :=
  c = ' ' || c = '\t' || c = '\n' || c = '\r' || c = Char.ofNat 11 || c = Char.ofNat 12

/-- ASCII letter. -/
def isAlphaCh (c : Char) : Bool :=
  (97 ≤ c.toNat && c.toNat ≤ 122) || (65 ≤ c.toNat && c.toNat ≤ 90)

/-- Python `\w` (ASCII): letters, digits, underscore. -/
def isWordCh (c : Char) : Bool :=
  isAlphaCh c || isDigitCh c || c = '_'

/-- `str.lower()` (ASCII case folding, all the code ever lowercases). -/
def toLowerStr (s : Str) : Str := s.map Char.toLower

/-- Strip a literal prefix, returning the remaining suffix. -/
def stripPre : Str → Str → Option Str
  | [], s => some s
  | _ :: _, [] => none
  | p :: ps, c :: cs => if p = c then stripPre ps cs else none

/-- Strip a literal prefix up to ASCII case (`re.IGNORECASE` literals). -/
def stripPreCI : Str → Str → Option Str
  | [], s => some s
  | _ :: _, [] => none
  | p :: ps, c :: cs => if p.toLower = c.toLower then stripPreCI ps cs else none

/-- Python `needle in haystack` on strings. -/
def containsSub (pat : Str) : Str → Bool
  | [] => decide (pat = [])
  | c :: cs => (stripPre pat (c :: cs)).isSome || containsSub pat cs

/-- Fueled worker for `replaceAll`. -/
def replaceAllGo (pat repl : Str) : Nat → Str → Str
  | 0, s => s
  | _ + 1, [] => []
  | fuel + 1, c :: cs =>
    match stripPre pat (c :: cs) with
    | some rest => repl ++ replaceAllGo pat repl fuel rest
    | none => c :: replaceAllGo pat repl fuel cs

/-- Python `s.replace(pat, repl)` for a nonempty `pat`: left-to-right,
non-overlapping, scanning resumes after each replacement. -/
def replaceAll (pat repl s : Str) : Str := replaceAllGo pat repl s.length s

/-- Python `s.strip()` (whitespace from both ends). -/
def pyStrip (s : Str) : Str :=
  ((s.dropWhile isPySpace).reverse.dropWhile isPySpace).reverse

/-- `", ".join(xs)`. -/
def joinComma (xs : List Str) : Str := List.intercalate (", ".toList) xs

/-! ## Regex searches of `voice_server.py`, modelled directly

Each CPython `re` pattern the handler uses is modelled by a scanning
function with the same leftmost-match semantics; greedy `\d{1,2}` groups
backtrack to the shorter width, exactly as the regex engine does. -/

/-- Exactly `n` decimal digits, returned as text plus the rest. -/
def grabDigits : Nat → Str → Option (Str × Str)
  | 0, s => some ([], s)
  | _ + 1, [] => none
  | n + 1, c :: cs =>
    if isDigitCh c then
      match grabDigits n cs with
      | some (ds, rest) => some (c :: ds, rest)
      | none => none
    else none

/-- `\d{1,2}:\d{2}` at the current position: try the two-digit hour first,
then backtrack to one digit (greedy `{1,2}`).  Returns the matched text and
the rest. -/
def matchTimePart (s : Str) : Option (Str × Str) :=
  match grabDigits 2 s with
  | some (hh, ':' :: r) =>
    (match grabDigits 2 r with
     | some (mm, rest) => some (hh ++ ':' :: mm, rest)
     | none => tryOneDigit s)
  | _ => tryOneDigit s
where
  /-- The one-digit-hour alternative. -/
  tryOneDigit (s : Str) : Option (Str × Str) :=
    match grabDigits 1 s with
    | some (h, ':' :: r) =>
      (match grabDigits 2 r with
       | some (mm, rest) => some (h ++ ':' :: mm, rest)
       | none => none)
    | _ => none

/-- `\d{4}-\d{2}-\d{2}` at the current position; matched text and rest. -/
def matchDateAt (s : Str) : Option (Str × Str) :=
  match grabDigits 4 s with
  | some (y4, '-' :: r1) =>
    (match grabDigits 2 r1 with
     | some (mo, '-' :: r2) =>
       (match grabDigits 2 r2 with
        | some (dd, rest) => some (y4 ++ '-' :: mo ++ '-' :: dd, rest)
        | none => none)
     | _ => none)
  | _ => none

/-- `re.search(r"(\d{4}-\d{2}-\d{2})", s)` (line 498). -/
def searchDate : Str → Option Str
  | [] => none
  | c :: cs =>
    match matchDateAt (c :: cs) with
    | some (d, _) => some d
    | none => searchDate cs

/-- Match of `(\d{4}-\d{2}-\d{2})[T\s](\d{1,2}:\d{2})` at the position. -/
def matchIsoAt (s : Str) : Option (Str × Str) :=
  match matchDateAt s with
  | some (d, c :: r) =>
    if c = 'T' || isPySpace c then
      match matchTimePart r with
      | some (t, _) => some (d, t)
      | none => none
    else none
  | _ => none

/-- `re.search(r"(\d{4}-\d{2}-\d{2})[T\s](\d{1,2}:\d{2})", s)` (line 495),
returning the date and time groups. -/
def searchIsoDT : Str → Option (Str × Str)
  | [] => none
  | c :: cs =>
    match matchIsoAt (c :: cs) with
    | some r => some r
    | none => searchIsoDT cs

/-- Word boundary before a word character: start of string or a preceding
non-word character. -/
def boundaryBefore (prev : Option Char) : Bool :=
  match prev with
  | none => true
  | some p => !isWordCh p

/-- Word boundary after a word character: end of string or a following
non-word character. -/
def boundaryAfter (rest : Str) : Bool :=
  match rest with
  | [] => true
  | c :: _ => !isWordCh c

/-- `\b(\d{1,2}:\d{2})\b` at the position (both boundary checks, with the
greedy hour-width backtracking). -/
def matchTimeBAt (s : Str) : Option Str :=
  match grabDigits 2 s with
  | some (hh, ':' :: r) =>
    (match grabDigits 2 r with
     | some (mm, rest) =>
       if boundaryAfter rest then some (hh ++ ':' :: mm) else tryOne s
     | none => tryOne s)
  | _ => tryOne s
where
  /-- The one-digit-hour alternative with its trailing boundary. -/
  tryOne (s : Str) : Option Str :=
    match grabDigits 1 s with
    | some (h, ':' :: r) =>
      (match grabDigits 2 r with
       | some (mm, rest) =>
         if boundaryAfter rest then some (h ++ ':' :: mm) else none
       | none => none)
    | _ => none

/-- `re.search(r"\b(\d{1,2}:\d{2})\b", s)` (lines 499 and 516). -/
def searchTimeB (s : Str) : Option Str :=
  go none s
where
  /-- Scan tracking the previous character for the leading boundary. -/
  go : Option Char → Str → Option Str
    | _, [] => none
    | prev, c :: cs =>
      match (if boundaryBefore prev then matchTimeBAt (c :: cs) else none) with
      | some t => some t
      | none => go (some c) cs

/-- The weekday-name alternation `(monday|tuesday|wednesday|thursday|sunday)`
in the regex's alternative order. -/
def dayNameLits : List Str :=
  ["monday".toList, "tuesday".toList, "wednesday".toList, "thursday".toList,
    "sunday".toList]

/-- `re.search(r"\b(monday|tuesday|wednesday|thursday|sunday)\b", lower)`
(line 514), returning the matched name. -/
def searchDayName (s : Str) : Option Str :=
  go none s
where
  /-- Try each alternative at a boundary position. -/
  tryAt (s : Str) : Option Str :=
    dayNameLits.findSome? (fun lit =>
      match stripPre lit s with
      | some rest => if boundaryAfter rest then some lit else none
      | none => none)
  /-- Scan tracking the previous character. -/
  go : Option Char → Str → Option Str
    | _, [] => none
    | prev, c :: cs =>
      match (if boundaryBefore prev then tryAt (c :: cs) else none) with
      | some t => some t
      | none => go (some c) cs

/-- `\b(\d{1,2})(?::(\d{2}))?\s*(am|pm)\b` at the position, in the regex
engine's backtracking order: two-digit hour before one-digit, the optional
minutes group present before absent.  Returns `(hour, minutes-or-0, isPm)`
as the code consumes the groups. -/
def matchAmPmAt (s : Str) : Option (Nat × Nat × Bool) :=
  firstSome (widths.map (fun w => tryWidth w s))
where
  /-- Candidate hour widths, greedy order. -/
  widths : List Nat := [2, 1]
  /-- First defined result. -/
  firstSome : List (Option (Nat × Nat × Bool)) → Option (Nat × Nat × Bool)
    | [] => none
    | some r :: _ => some r
    | none :: rest => firstSome rest
  /-- Digits-to-value for the matched groups (`int(...)`). -/
  valOf (ds : Str) : Nat := ds.foldl (fun a c => a * 10 + ((digitVal? c).getD 0)) 0
  /-- Finish after the optional minutes group: `\s*(am|pm)\b`. -/
  finish (h : Nat) (mi : Nat) (r : Str) : Option (Nat × Nat × Bool) :=
    let r' := r.dropWhile isPySpace
    match stripPre ("am".toList) r' with
    | some rest => if boundaryAfter rest then some (h, mi, false) else none
    | none =>
      match stripPre ("pm".toList) r' with
      | some rest => if boundaryAfter rest then some (h, mi, true) else none
      | none => none
  /-- One hour-width alternative, minutes-present tried first. -/
  tryWidth (w : Nat) (s : Str) : Option (Nat × Nat × Bool) :=
    match grabDigits w s with
    | some (hd, r1) =>
      (match r1 with
       | ':' :: r2 =>
         (match grabDigits 2 r2 with
          | some (md, r3) =>
            (match finish (valOf hd) (valOf md) r3 with
             | some res => some res
             | none => finish (valOf hd) 0 r1)
          | none => finish (valOf hd) 0 r1)
       | _ => finish (valOf hd) 0 r1)
    | none => none

/-- `re.search(r"\b(\d{1,2})(?::(\d{2}))?\s*(am|pm)\b", lower)` (line 518). -/
def searchAmPm (s : Str) : Option (Nat × Nat × Bool) :=
  go none s
where
  /-- Scan tracking the previous character. -/
  go : Option Char → Str → Option (Nat × Nat × Bool)
    | _, [] => none
    | prev, c :: cs =>
      match (if boundaryBefore prev then matchAmPmAt (c :: cs) else none) with
      | some t => some t
      | none => go (some c) cs

/-- `\b(lit1|lit2|...)\b` search for plain-letter literals. -/
def searchWordLits (lits : List Str) (s : Str) : Bool :=
  go none s
where
  /-- Try each literal at a boundary position. -/
  tryAt (s : Str) : Bool :=
    lits.any (fun lit =>
      match stripPre lit s with
      | some rest => boundaryAfter rest
      | none => false)
  /-- Scan tracking the previous character. -/
  go : Option Char → Str → Bool
    | _, [] => false
    | prev, c :: cs =>
      (boundaryBefore prev && tryAt (c :: cs)) || go (some c) cs

/-- `re.search(r"\b(noon|midday)\b", lower)` (line 520), as a hit test. -/
def searchNoon (s : Str) : Bool :=
  searchWordLits ["noon".toList, "midday".toList] s

/-- `re.search(r"\b(midnight)\b", lower)` (line 521), as a hit test. -/
def searchMidnight (s : Str) : Bool :=
  searchWordLits ["midnight".toList] s

/-- Character class `[A-Za-z0-9._%+-]` (email local part). -/
def isLocalCh (c : Char) : Bool :=
  isAlphaCh c || isDigitCh c || c = '.' || c = '_' || c = '%' || c = '+' || c = '-'

/-- Character class `[A-Za-z0-9.-]` (email domain part). -/
def isDomCh (c : Char) : Bool :=
  isAlphaCh c || isDigitCh c || c = '.' || c = '-'

/-- `[A-Za-z0-9._%+-]+@[A-Za-z0-9.-]+\.[A-Za-z]{2,}` at the position: the
greedy domain run backtracks from the right to the last dot followed by at
least two letters. -/
def matchEmailAt (s : Str) : Option Str :=
  let loc := s.takeWhile isLocalCh
  if loc.isEmpty then none
  else
    match s.drop loc.length with
    | '@' :: r2 =>
      let dom := r2.takeWhile isDomCh
      ((List.range dom.length).reverse.findSome? (fun i =>
        if dom.getD i ' ' = '.' then
          let run := (dom.drop (i + 1)).takeWhile isAlphaCh
          if 2 ≤ run.length then
            some (loc ++ '@' :: (dom.take i ++ '.' :: run))
          else none
        else none))
    | _ => none

/-- `re.search` for the email pattern (line 563), returning the match text. -/
def searchEmail : Str → Option Str
  | [] => none
  | c :: cs =>
    match matchEmailAt (c :: cs) with
    | some e => some e
    | none => searchEmail cs

/-! ## Sessions (`CALL_SESSIONS` entries) and scheduler session helpers -/

/-- One turn of a session's conversation history. -/
structure Msg where
  role : Str
  content : Str
deriving DecidableEq, Repr

/-- The per-call session dictionary, with the fields the embedded code reads
or writes (`stage` and `decline_attempts` are set in `/voice` but never read
by the embedded turn processing). -/
structure Session where
  history : List Msg := []
  available_slots : List Str := []
  proposed_slots : List Str := []
  slot_index : Nat := 0
  scheduled_slot : Option Str := none
  meeting_logged : Bool := false
  prospect_number : Option Str := none
  twilio_number : Option Str := none
deriving DecidableEq

/-- Python truthiness of `session.get("scheduled_slot")` being false:
the key is absent or holds an empty string. -/
def sessSlotFalsy (sess : Session) : Bool :=
  match sess.scheduled_slot with
  | none => true
  | some v => v.isEmpty

/-- `register_scheduled_slot(session, slot)` (`scheduler.py` lines 92-96). -/
def register_scheduled_slot (sess : Session) (slot : Str) : Session :=
  { sess with
    scheduled_slot := some slot
    available_slots := sess.available_slots.filter (fun s => decide (s ≠ slot))
    proposed_slots := [] }

/-! ## `_extract_name_from_history` (`voice_server.py` lines 69-92) -/

/-- Hebrew letter (the character-class range of the pattern). -/
def isHebLetter (c : Char) : Bool :=
  1488 ≤ c.toNat && c.toNat ≤ 1514

/-- `\blit\s+([A-Z][a-z]+(?:\s+[A-Z][a-z]+)?)\b` under `re.IGNORECASE` at the
current position (so each name word is a maximal ASCII-letter run of length
at least two); the group text keeps the original whitespace between the two
words, the two-word alternative being tried first (greedy optional group). -/
def matchNameAt (lit : Str) (s : Str) : Option Str :=
  match stripPreCI lit s with
  | none => none
  | some r1 =>
    let ws := r1.takeWhile isPySpace
    if ws.isEmpty then none
    else
      let r2 := r1.drop ws.length
      let run1 := r2.takeWhile isAlphaCh
      if run1.length < 2 then none
      else
        let r3 := r2.drop run1.length
        let ws2 := r3.takeWhile isPySpace
        let second : Option Str :=
          if ws2.isEmpty then none
          else
            let r4 := r3.drop ws2.length
            let run2 := r4.takeWhile isAlphaCh
            if 2 ≤ run2.length ∧ boundaryAfter (r4.drop run2.length) then
              some (run1 ++ ws2 ++ run2)
            else none
        match second with
        | some g => some g
        | none => if boundaryAfter r3 then some run1 else none

/-- `re.search` for one of the English name patterns. -/
def searchNameLit (lit : Str) (s : Str) : Option Str :=
  go none s
where
  /-- Scan tracking the previous character for the leading boundary. -/
  go : Option Char → Str → Option Str
    | _, [] => none
    | prev, c :: cs =>
      match (if boundaryBefore prev then matchNameAt lit (c :: cs) else none) with
      | some t => some t
      | none => go (some c) cs

/-- `re.search(r"(?:קוראים לי|שמי)\s+([A-Za-zא-ת]+)", text)`. -/
def searchHebrewName : Str → Option Str
  | [] => none
  | c :: cs =>
    match tryAt (c :: cs) with
    | some t => some t
    | none => searchHebrewName cs
where
  /-- Try both literal alternatives at the position. -/
  tryAt (s : Str) : Option Str :=
    (["קוראים לי".toList, "שמי".toList]).findSome? (fun lit =>
      match stripPre lit s with
      | none => none
      | some r1 =>
        let ws := r1.takeWhile isPySpace
        if ws.isEmpty then none
        else
          let run := (r1.drop ws.length).takeWhile (fun c => isAlphaCh c || isHebLetter c)
          if run.isEmpty then none else some run)

/-- `_extract_name_from_history(history)`: scan the last 8 turns, most
recent first, user turns only, first matching pattern wins. -/
def extract_name_from_history (history : List Msg) : Option Str :=
  if history.isEmpty then none
  else
    (history.drop (history.length - 8)).reverse.findSome? (fun msg =>
      if msg.role ≠ ("user".toList) then none
      else
        let text := pyStrip msg.content
        if text.isEmpty then none
        else
          match searchNameLit ("my name is".toList) text with
          | some n => some n
          | none =>
            match searchNameLit ("i am".toList) text with
            | some n => some n
            | none => searchHebrewName text)

/-! ## `_normalize_iso` (`voice_server.py` lines 374-404) -/

/-- `\d{2}:\d{2}` at the current position (exact widths), as text. -/
def timeExactAt (s : Str) : Option Str :=
  match grabDigits 2 s with
  | some (hh, ':' :: r) =>
    (match grabDigits 2 r with
     | some (mm, _) => some (hh ++ ':' :: mm)
     | none => none)
  | _ => none

/-- `re.search(r"(\d{4}-\d{2}-\d{2})[T\s](\d{2}:\d{2})", core)` (line 397),
already joined as `"date time"`. -/
def searchIsoExact : Str → Option Str
  | [] => none
  | c :: cs =>
    match tryAt (c :: cs) with
    | some t => some t
    | none => searchIsoExact cs
where
  /-- The pattern at one position. -/
  tryAt (s : Str) : Option Str :=
    match matchDateAt s with
    | some (d, c :: r) =>
      if c = 'T' || isPySpace c then
        match timeExactAt r with
        | some t => some (d ++ ' ' :: t)
        | none => none
      else none
    | _ => none

/-- `re.search(r"(\d{4}-\d{2}-\d{2}).*(\d{2}:\d{2})", s)` (line 401):
leftmost date, then — `.` not crossing newlines and `.*` greedy — the
rightmost exact `\d{2}:\d{2}` on the same line after it; joined groups. -/
def searchDateDotTime : Str → Option Str
  | [] => none
  | c :: cs =>
    match tryAt (c :: cs) with
    | some t => some t
    | none => searchDateDotTime cs
where
  /-- The pattern at one position. -/
  tryAt (s : Str) : Option Str :=
    match matchDateAt s with
    | some (d, rest) =>
      let seg := rest.takeWhile (fun c => decide (c ≠ '\n'))
      ((List.range seg.length).reverse.findSome? (fun j =>
        match timeExactAt (rest.drop j) with
        | some t => some (d ++ ' ' :: t)
        | none => none))
    | none => none

/-- `_normalize_iso(dt_raw)`: `none` models returning `None` (non-string or
falsy input, or no recognizable date-time). -/
def normalize_iso (dtRaw : Json) : Option Str :=
  match dtRaw.asStr with
  | none => none
  | some raw =>
    if raw.isEmpty then none
    else
      let core0 := raw.takeWhile (fun c => decide (c ≠ 'Z'))
      let tail := core0.drop 10
      let core :=
        if tail.any (fun c => c = '+' || c = '-') then
          core0.take 10 ++ tail.takeWhile (fun c => !(c = '+' || c = '-'))
        else core0
      match searchIsoExact core with
      | some joined => some joined
      | none => searchDateDotTime raw

/-! ## `_adjust_slot_to_future_within_window` (`voice_server.py` 95-120) -/

/-- Try the next occurrence (within `days` days) of the same weekday and
time that `is_slot_available` approves; `none` if no candidate is found. -/
def adjust_slot (s : Str) (L : Ledger) (now : DateTime) (days : Nat := 14) :
    Option Str :=
  match parseSlot s with
  | none => none
  | some original =>
    if dtLt now original ∧ is_slot_available s L now 14 then some s
    else
      (List.range days).findSome? (fun i =>
        let candidate := addDays now (i + 1)
        if weekday candidate = weekday original then
          let cand_str := fmtSlot (replaceTime candidate original.hh original.mm)
          if is_slot_available cand_str L now 14 then some cand_str else none
        else none)

/-! ## The `[[BOOKED {...}]]` substitution (`voice_server.py` 369-488) -/

/-- The literal `{` character. -/
def braceOpen : Char := Char.ofNat 123

/-- The literal `}` character. -/
def braceClose : Char := Char.ofNat 125

/-- After the payload's closing brace: `\s*\]\]`, returning the rest. -/
def closeAfterPayload (s : Str) : Option Str :=
  stripPre ("]]".toList) (s.dropWhile isPySpace)

/-- The non-greedy `(\{.*?\})` (with `re.DOTALL`): consume to the first
closing brace whose continuation `\s*\]\]` matches; the group includes both
braces. -/
def scanPayload : Str → Str → Option (Str × Str)
  | _, [] => none
  | acc, c :: rest =>
    if c = braceClose then
      match closeAfterPayload rest with
      | some rest' => some (braceOpen :: (acc.reverse ++ [braceClose]), rest')
      | none => scanPayload (c :: acc) rest
    else scanPayload (c :: acc) rest

/-- A match of `\[\[BOOKED\s*(\{.*?\})\s*\]\]` starting at the current
position: the group-1 text and the rest of the string after the match. -/
def matchBookedAt (s : Str) : Option (Str × Str) :=
  match stripPre ("[[BOOKED".toList) s with
  | none => none
  | some r1 =>
    match r1.dropWhile isPySpace with
    | c :: r2 => if c = braceOpen then scanPayload [] r2 else none
    | [] => none

/-- `booked_pattern.sub(handler, s)` with a stateful, possibly raising
handler: leftmost non-overlapping matches, each replaced by the handler's
text; a raising handler (`none` text) aborts the substitution, keeping the
handler's side effects on the state, as `re.sub` propagates the exception
after the ledger/session mutations happened. -/
def subBookedGo (h : Str → σ → Option Str × σ) : Nat → Str → σ → Option Str × σ
  | 0, s, st => (some s, st)
  | _ + 1, [], st => (some [], st)
  | fuel + 1, c :: cs, st =>
    match matchBookedAt (c :: cs) with
    | some (g1, rest) =>
      (match h g1 st with
       | (none, st') => (none, st')
       | (some repl, st') =>
         match subBookedGo h fuel rest st' with
         | (none, st'') => (none, st'')
         | (some t, st'') => (some (repl ++ t), st''))
    | none =>
      match subBookedGo h fuel cs st with
      | (none, st') => (none, st')
      | (some t, st') => (some (c :: t), st')

/-- `booked_pattern.sub` entry point (fuel: one unit per scanned position). -/
def subBooked (h : Str → σ → Option Str × σ) (s : Str) (st : σ) :
    Option Str × σ :=
  subBookedGo h s.length s st

/-- A string-valued payload field (`dict(payload)` keeps every key; the
modelled entry keeps the keys the code later reads, with non-string values
behaving as absent at those reads). -/
def entryStringField (payload : Json) (k : Str) : Option Str :=
  (payload.get k).bind Json.asStr

/-- `_handle_booked(match)` (lines 406-486) over session-and-ledger state;
a `none` text models the uncaught `TypeError` raised by
`is_slot_available(slot)` at line 456 when the payload's `slot` is a truthy
non-string, which aborts the whole substitution. -/
def handle_booked (jloads : Str → Option Json) (call_sid : Str)
    (now : DateTime) (ts : Str) (raw : Str) :
    Session × Ledger → Option Str × (Session × Ledger) :=
  fun st =>
    let (sess, L) := st
    match jloads raw with
    | none => (some [], st)
    | some payload =>
      let slotRes : Option (Except Unit Str) :=
        match payload.get ("slot".toList) with
        | some j =>
          if j.falsy then none
          else
            (match j.asStr with
             | some s => some (Except.ok s)
             | none => some (Except.error ()))
        | none =>
          match payload.get ("datetime_iso".toList) with
          | some dj =>
            (match normalize_iso dj with
             | some s => some (Except.ok s)
             | none => none)
          | none => none
      match slotRes with
      | none => (some [], st)
      | some (Except.error _) => (none, st)
      | some (Except.ok slot) =>
        let e0 : Entry :=
          { slot := some slot
            call_sid :=
              match payload.get ("call_sid".toList) with
              | some j => j.asStr
              | none => some call_sid
            name := entryStringField payload ("name".toList)
            email := entryStringField payload ("email".toList)
            phone := entryStringField payload ("phone".toList)
            notes := entryStringField payload ("notes".toList) }
        let e1 :=
          match sess.prospect_number with
          | some p =>
            if (e0.phone.getD []).isEmpty && !p.isEmpty then
              { e0 with phone := some p }
            else e0
          | none => e0
        let e2 :=
          if (e1.name.getD []).isEmpty then
            match extract_name_from_history sess.history with
            | some cand =>
              if cand.isEmpty then { e1 with pending_name_extraction := true }
              else { e1 with name := some cand }
            | none => { e1 with pending_name_extraction := true }
          else e1
        let e3 :=
          if is_slot_available slot L now 14 then e2
          else
            match adjust_slot slot L now 14 with
            | some adj => { e2 with slot := some adj }
            | none => e2
        let booked := book_slot e3 L now ts
        let entrySlot := (e3.slot).getD slot
        if booked.1 then
          let sess' := register_scheduled_slot sess entrySlot
          let L'' := (update_meeting entrySlot (some call_sid) (some id) booked.2).2
          (some (("I have recorded that meeting for ".toList) ++ entrySlot ++ ['.']),
            (sess', L''))
        else
          let slots_now := generate_available_slots (get_booked_slots booked.2) 14 now
          let sess' := { sess with available_slots := slots_now }
          let sugg :=
            if slots_now.isEmpty then ("another time that works for you".toList)
            else joinComma (slots_now.take 2)
          (some (("I\x27m sorry — that time is no longer available. How about ".toList)
              ++ sugg ++ ['?']),
            (sess', booked.2))

/-! ## The natural-language fallback booking path (`voice_server.py` 490-613) -/

/-- `int(...)` on a digit string. -/
def intVal (ds : Str) : Nat :=
  ds.foldl (fun a c => a * 10 + ((digitVal? c).getD 0)) 0

/-- `"%02d" % n` (no truncation above two digits). -/
def pct02d (n : Nat) : Str :=
  if n < 10 then '0' :: Nat.toDigits 10 n else Nat.toDigits 10 n

/-- Zero-pad a one-digit hour of an `H:MM` text (lines 507-509, 528-530). -/
def padHour (hm : Str) : Str :=
  if (hm.takeWhile (fun c => decide (c ≠ ':'))).length = 1 then '0' :: hm else hm

/-- `hh, mm = map(int, hour_min.split(":"))`. -/
def parseHM (hm : Str) : Option (Nat × Nat) :=
  match hm.splitOn ':' with
  | [a, b] => some (intVal a, intVal b)
  | _ => none

/-- `{"monday": 0, "tuesday": 1, "wednesday": 2, "thursday": 3, "sunday": 6}`
lookup (line 547). -/
def weekdayMapLookup (name : Str) : Option Nat :=
  if name = ("monday".toList) then some 0
  else if name = ("tuesday".toList) then some 1
  else if name = ("wednesday".toList) then some 2
  else if name = ("thursday".toList) then some 3
  else if name = ("sunday".toList) then some 6
  else none

/-- Lines 494-560: the candidate slot string the fallback infers from the
raw reply text (ISO-like date-time, separate date and time, or an English
weekday name with a time expression resolved to the nearest future
occurrence within 14 days). -/
def fallback_slot_guess (original : Str) (now : DateTime) : Option Str :=
  let direct : Option (Str × Str) :=
    match searchIsoDT original with
    | some dt => some dt
    | none =>
      match searchDate original, searchTimeB original with
      | some d, some t => some (d, t)
      | _, _ => none
  match direct with
  | some (datePart, timePart) => some (datePart ++ ' ' :: padHour timePart)
  | none =>
    let lower := toLowerStr original
    match searchDayName lower with
    | none => none
    | some dayName =>
      let time_hhmm := searchTimeB original
      let time_ampm := searchAmPm lower
      let noonM := searchNoon lower
      let midnightM := searchMidnight lower
      if time_hhmm.isSome || time_ampm.isSome || noonM || midnightM then
        let hour_min : Option Str :=
          match time_hhmm with
          | some hm => some (padHour hm)
          | none =>
            match time_ampm with
            | some (h, mi, pm) =>
              let h' :=
                if pm && decide (h ≠ 12) then h + 12
                else if !pm && decide (h = 12) then 0
                else h
              some (pct02d h' ++ ':' :: pct02d mi)
            | none =>
              if noonM then some ("12:00".toList)
              else if midnightM then some ("00:00".toList)
              else none
        let target_wd := weekdayMapLookup dayName
        (List.range 14).findSome? (fun delta =>
          let candidate := addDays now delta
          if some (weekday candidate) = target_wd then
            match hour_min with
            | none => none
            | some hm =>
              match parseHM hm with
              | none => none
              | some (hh, mi) =>
                -- `candidate.replace(hour=hh, minute=mi, ...)` (line 556)
                -- raises `ValueError` for an out-of-range hour or minute
                -- (a pm hour of 13-99 converts past 23, and the 24-hour
                -- match can carry hour 24-99 or minute 60-99); the
                -- exception is caught at line 612 and aborts the whole
                -- fallback with no booking, and since the converted time
                -- is the same for every delta this equals producing no
                -- guess at all.
                if 23 < hh || 59 < mi then none
                else
                  let candidate_dt := replaceTime candidate hh mi
                  if dtLe candidate_dt now then none
                  else some (fmtSlot candidate_dt)
          else none)
      else none

/-- Lines 490-613: when the session has no (truthy) scheduled slot, try to
infer and book a slot from the raw reply `original`, appending a
confirmation or an apology line to the post-substitution text `text`; all
state effects go through `book_slot`/`register_scheduled_slot`/
`update_meeting` exactly as in the handler. -/
def fallback_stage (original text : Str) (sess : Session) (L : Ledger)
    (call_sid : Str) (now : DateTime) (ts : Str) : Str × Session × Ledger :=
  if !sessSlotFalsy sess then (text, sess, L)
  else
    match fallback_slot_guess original now with
    | none => (text, sess, L)
    | some slot_guess =>
      if is_slot_available slot_guess L now 14 then
        let to_email := searchEmail original
        let e0 : Entry :=
          { slot := some slot_guess
            call_sid := some call_sid
            email := to_email
            phone := sess.prospect_number
            notes := some ("fallback_nl_booking_inferred_from_assistant_reply".toList) }
        let e1 :=
          match extract_name_from_history sess.history with
          | some cand =>
            if cand.isEmpty then { e0 with pending_name_extraction := true }
            else { e0 with name := some cand }
          | none => { e0 with pending_name_extraction := true }
        let booked := book_slot e1 L now ts
        if booked.1 then
          let sess' := register_scheduled_slot sess slot_guess
          let L'' := (update_meeting slot_guess (some call_sid) (some id) booked.2).2
          let suffix :=
            match to_email with
            | some em =>
              (" I have recorded that meeting for ".toList) ++ slot_guess
                ++ (" and will email a confirmation to ".toList) ++ em ++ ['.']
            | none => (" I have recorded that meeting for ".toList) ++ slot_guess ++ ['.']
          (pyStrip (text ++ '\n' :: suffix), sess', L'')
        else
          let sess' :=
            { sess with
              available_slots := generate_available_slots (get_booked_slots booked.2) 14 now }
          (pyStrip (text ++ ("\nThat time appears unavailable now. Let me check other times.".toList)),
            sess', booked.2)
      else (text, sess, L)

/-! ## History trimming, end-call guard, TwiML rendering, full turn -/

/-- Lines 620-624: once the history exceeds 24 entries, keep the first
entry plus the 23 most recent. -/
def trimHistory (h : List Msg) : List Msg :=
  if 24 < h.length then h.take 1 ++ h.drop (h.length - 23) else h

/-- The `[[END_CALL]]` marker. -/
def endMarker : Str := "[[END_CALL]]".toList

/-- Lines 626-629: strip the end marker when no meeting is scheduled and no
other wrap-up tag is present. -/
def end_call_guard (sess : Session) (text : Str) : Str :=
  if containsSub endMarker text then
    if sessSlotFalsy sess
        && !(containsSub ("[[BOOKED".toList) text
          || containsSub ("[[CALLBACK_NEEDED".toList) text
          || containsSub ("[[SEND_INFO".toList) text) then
      pyStrip (replaceAll endMarker [] text)
    else text
  else text

/-- The fixed goodbye line of the hangup branch (line 248). -/
def goodbyeLine : Str := "Thanks for your time today. Goodbye!".toList

/-- The fixed re-prompt when the reply stripped to nothing (line 252). -/
def stillHereLine : Str := "I am still here. Let us pick up where we left off.".toList

/-- `continue_conversation_twiml(reply, ...)` (lines 238-255): the end flag
and the text the caller hears spoken on this response. -/
def continue_twiml (reply : Str) : Bool × Str :=
  let should_end := containsSub endMarker reply
  let spoken_reply := pyStrip (replaceAll endMarker [] reply)
  if should_end then
    (true, if spoken_reply.isEmpty then goodbyeLine
           else spoken_reply ++ ' ' :: goodbyeLine)
  else
    (false, if spoken_reply.isEmpty then stillHereLine else spoken_reply)

/-- The outputs of one processed turn. -/
structure TurnOut where
  text : Str
  sess : Session
  ledger : Ledger
  shouldEnd : Bool
  spoken : Str

/-- `process_recording`'s post-processing of one assistant reply (lines
369-632, after the reply was obtained and appended to the history): the
`[[BOOKED ...]]` substitution (whose uncaught exceptions are caught at line
614, keeping the pre-substitution text and skipping the fallback), the
natural-language fallback, history trimming, the end-call guard, and the
TwiML rendering. -/
def process_reply (reply : Str) (sess : Session) (L : Ledger) (call_sid : Str)
    (now : DateTime) (ts : Str) (jloads : Str → Option Json) : TurnOut :=
  let sub := subBooked (handle_booked jloads call_sid now ts) reply (sess, L)
  let afterTry : Str × Session × Ledger :=
    match sub with
    | (none, (s1, L1)) => (reply, s1, L1)
    | (some t, (s1, L1)) => fallback_stage reply t s1 L1 call_sid now ts
  let sess2 := { afterTry.2.1 with history := trimHistory afterTry.2.1.history }
  let text2 := end_call_guard sess2 afterTry.1
  let tw := continue_twiml text2
  ⟨text2, sess2, afterTry.2.2, tw.1, tw.2⟩

/-! ## Concrete sample values used by witnesses and counterexamples -/

/-- A reply naming a weekday and time in natural language. -/
def nlReply : Str := ("How about Tuesday at 12:00? My email is a@b.co").toList

/-- A session that already holds a scheduled slot. -/
def sessScheduled : Session := { scheduled_slot := some ("2026-10-13 09:00".toList) }

/-- A sample current instant: Monday 2026-10-12, 10:30. -/
def now0 : DateTime := ⟨2026, 10, 12, 10, 30⟩

/-- A sample valid, in-window slot (Tuesday 2026-10-13, 09:00). -/
def slotA : Str := "2026-10-13 09:00".toList

/-- A booking entry naming `slotA`. -/
def entA : Entry := { slot := some slotA }

/-- A fresh session (as created by `get_session`, before any booking). -/
def sessEmpty : Session := {}

/-- A `json.loads` stand-in for turns whose replies carry no payload. -/
def jlNone : Str → Option Json := fun _ => none

/-- A model reply carrying a `[[CALLBACK_NEEDED {...}]]` tag, as the system
prompt instructs the model to emit on a callback disposition. -/
def cbReply : Str :=
  ("Sure, I will arrange that. [[CALLBACK_NEEDED \x7b\x22when\x22:\x22tomorrow\x22\x7d]]").toList

/-- A 30-entry conversation history. -/
def hist30 : List Msg :=
  (List.range 30).map (fun i => ⟨"user".toList, pad2 i⟩)

/-- A `json.load` stand-in that fails with `JSONDecodeError` on every input
(a file that is text but not JSON). -/
def jloadBad : Str → Except PyExc Json := fun _ => Except.error PyExc.jsonDecodeError

/-- Server timestamps for the two interleaved `book_slot` calls. -/
def tsA : Str := "2026-10-12T07:30:01".toList

/-- Second server timestamp. -/
def tsB : Str := "2026-10-12T07:30:02".toList

/-! ## Format/parse round trip -/

section Lemmas

theorem digitVal?_digitChar (d : Nat) (h : d < 10) :
    digitVal? (digitChar d) = some d := by
  interval_cases d <;> rfl

theorem readNum_pad2 (n : Nat) (rest : Str) (h : n < 100) :
    readNum 2 (pad2 n ++ rest) = some (n, rest) := by
  have h1 : n / 10 % 10 < 10 := Nat.mod_lt _ (by norm_num)
  have h2 : n % 10 < 10 := Nat.mod_lt _ (by norm_num)
  simp [pad2, readNum, readDigits, digitVal?_digitChar _ h1, digitVal?_digitChar _ h2]
  omega

theorem readNum_pad4 (n : Nat) (rest : Str) (h : n < 10000) :
    readNum 4 (pad4 n ++ rest) = some (n, rest) := by
  have h1 : n / 1000 % 10 < 10 := Nat.mod_lt _ (by norm_num)
  have h2 : n / 100 % 10 < 10 := Nat.mod_lt _ (by norm_num)
  have h3 : n / 10 % 10 < 10 := Nat.mod_lt _ (by norm_num)
  have h4 : n % 10 < 10 := Nat.mod_lt _ (by norm_num)
  simp [pad4, readNum, readDigits, digitVal?_digitChar _ h1, digitVal?_digitChar _ h2,
    digitVal?_digitChar _ h3, digitVal?_digitChar _ h4]
  omega

theorem readNum_pad2_nil (n : Nat) (h : n < 100) :
    readNum 2 (pad2 n) = some (n, []) := by
  have := readNum_pad2 n [] h
  simpa using this

theorem daysInMonth_le (y m : Nat) : daysInMonth y m ≤ 31 := by
  unfold daysInMonth
  split <;> [split <;> omega; split <;> omega]

theorem one_le_daysInMonth (y m : Nat) : 1 ≤ daysInMonth y m := by
  unfold daysInMonth
  split <;> [split <;> omega; split <;> omega]

theorem parseSlot_fmtSlot (t : DateTime) (hv : t.Valid) (hy : t.y ≤ 9999) :
    parseSlot (fmtSlot t) = some t := by
  obtain ⟨hy1, hm1, hm2, hd1, hd2, hh, hmm⟩ := hv
  have hdle : t.d ≤ 31 := le_trans hd2 (daysInMonth_le t.y t.m)
  rw [fmtSlot, parseSlot]
  simp only [readNum_pad4 t.y _ (by omega), readNum_pad2 t.m _ (by omega),
    readNum_pad2 t.d _ (by omega), readNum_pad2 t.hh _ (by omega),
    readNum_pad2_nil t.mm (by omega)]
  have hvld : DateTime.Valid ⟨t.y, t.m, t.d, t.hh, t.mm⟩ :=
    ⟨hy1, hm1, hm2, hd1, hd2, hh, hmm⟩
  simp [hvld]

theorem valid_nextDay (t : DateTime) (h : t.Valid) : (nextDay t).Valid := by
  obtain ⟨h1, h2, h3, h4, h5, h6, h7⟩ := h
  have hdm1 := one_le_daysInMonth t.y (t.m + 1)
  have hdm2 := one_le_daysInMonth (t.y + 1) 1
  unfold nextDay DateTime.Valid
  split_ifs with hd hm <;> dsimp only <;> omega

theorem valid_addDays (t : DateTime) (h : t.Valid) (n : Nat) :
    (addDays t n).Valid := by
  induction n with
  | zero => exact h
  | succ n ih =>
    rw [addDays, Function.iterate_succ_apply']
    exact valid_nextDay _ ih

theorem y_le_nextDay (t : DateTime) : t.y ≤ (nextDay t).y := by
  unfold nextDay
  split_ifs <;> simp

theorem y_addDays_mono (t : DateTime) {k n : Nat} (h : k ≤ n) :
    (addDays t k).y ≤ (addDays t n).y := by
  have step : ∀ j, (addDays t k).y ≤ (addDays t (k + j)).y := by
    intro j
    induction j with
    | zero => exact le_refl _
    | succ j ih =>
      have he : k + (j + 1) = (k + j) + 1 := by omega
      have hstep : addDays t ((k + j) + 1) = nextDay (addDays t (k + j)) :=
        Function.iterate_succ_apply' nextDay (k + j) t
      rw [he, hstep]
      exact le_trans ih (y_le_nextDay _)
  have he : n = k + (n - k) := by omega
  rw [he]
  exact step _

theorem valid_combine (day : DateTime) (h : day.Valid) {hour : Nat}
    (hr : hour < 24) : (combine day hour).Valid := by
  obtain ⟨h1, h2, h3, h4, h5, _, _⟩ := h
  unfold combine DateTime.Valid
  dsimp only
  omega

theorem weekday_combine (day : DateTime) (hour : Nat) :
    weekday (combine day hour) = weekday day := rfl

theorem mem_generate_elim {booked : List Str} {days : Nat} {now : DateTime}
    {s : Str} (hs : s ∈ generate_available_slots booked days now) :
    ∃ offset, offset < days ∧
      weekday (addDays now offset) ∈ allowedWeekdays ∧
      ∃ i, i < 8 ∧
        ¬ dtLe (combine (addDays now offset) (8 + i)) now ∧
        s = fmtSlot (combine (addDays now offset) (8 + i)) ∧
        s ∉ booked := by
  unfold generate_available_slots at hs
  rw [List.mem_flatten] at hs
  obtain ⟨l, hl, hsl⟩ := hs
  rw [List.mem_map] at hl
  obtain ⟨offset, hoff, rfl⟩ := hl
  rw [List.mem_range] at hoff
  by_cases hw : weekday (addDays now offset) ∈ allowedWeekdays
  · rw [if_pos hw] at hsl
    unfold slotsForDay at hsl
    simp only [List.mem_filterMap, List.mem_range] at hsl
    obtain ⟨i, hi, hf⟩ := hsl
    refine ⟨offset, hoff, hw, i, hi, ?_⟩
    by_cases hpast : dtLe (combine (addDays now offset) (8 + i)) now
    · rw [if_pos hpast] at hf
      exact absurd hf (by simp)
    · rw [if_neg hpast] at hf
      by_cases hb : fmtSlot (combine (addDays now offset) (8 + i)) ∈ booked
      · rw [if_pos hb] at hf
        exact absurd hf (by simp)
      · rw [if_neg hb] at hf
        have hse : fmtSlot (combine (addDays now offset) (8 + i)) = s :=
          Option.some.inj hf
        exact ⟨hpast, hse.symm, hse ▸ hb⟩
  · rw [if_neg hw] at hsl
    exact absurd hsl (List.not_mem_nil s)

/-- C4: every slot string returned by `generate_available_slots` parses back
to a datetime whose weekday is in the Sunday–Thursday set, whose hour is in
`[8, 15]`, which lies strictly after the current time, and whose date is one
of the days inside the lookahead window (`now + offset` days for some
`offset < days`). -/
theorem generate_slots_in_window (booked : List Str) (days : Nat)
    (now : DateTime) (hv : now.Valid) (hy : (addDays now days).y ≤ 9999)
    (s : Str) (hs : s ∈ generate_available_slots booked days now) :
    ∃ dt : DateTime, parseSlot s = some dt ∧
      weekday dt ∈ allowedWeekdays ∧
      8 ≤ dt.hh ∧ dt.hh ≤ 15 ∧
      dtLt now dt ∧
      ∃ offset, offset < days ∧
        dt.y = (addDays now offset).y ∧ dt.m = (addDays now offset).m ∧
        dt.d = (addDays now offset).d := by
  obtain ⟨offset, hoff, hw, i, hi, hfut, hse, _⟩ := mem_generate_elim hs
  set day := addDays now offset with hday
  set dt := combine day (8 + i) with hdt
  have hvday : day.Valid := valid_addDays now hv offset
  have hvdt : dt.Valid := valid_combine day hvday (by omega)
  have hydt : dt.y ≤ 9999 := by
    have : day.y ≤ (addDays now days).y := y_addDays_mono now (le_of_lt hoff)
    calc dt.y = day.y := rfl
      _ ≤ (addDays now days).y := this
      _ ≤ 9999 := hy
  refine ⟨dt, ?_, ?_, ?_, ?_, ?_, offset, hoff, rfl, rfl, rfl⟩
  · rw [hse]
    exact parseSlot_fmtSlot dt hvdt hydt
  · rw [hdt, weekday_combine]
    exact hw
  · show 8 ≤ 8 + i
    omega
  · show 8 + i ≤ 15
    omega
  · unfold dtLt
    unfold dtLe at hfut
    omega

/-- C5: `generate_available_slots` never returns a slot contained in the
booked set it was given. -/
theorem generate_excludes_booked (booked : List Str) (days : Nat)
    (now : DateTime) (s : Str)
    (hs : s ∈ generate_available_slots booked days now) : s ∉ booked := by
  obtain ⟨_, _, _, _, _, _, _, hnb⟩ := mem_generate_elim hs
  exact hnb

/-- C10: on any string that parses with a nonzero minute component,
`is_slot_available` is false — besides its own weekday/hour/future checks it
requires membership in the generated list, which holds only on-the-hour
slot strings. -/
theorem off_hour_minutes_unavailable (s : Str) (L : Ledger) (now : DateTime)
    (days : Nat) (dt : DateTime) (hp : parseSlot s = some dt)
    (hm : dt.mm ≠ 0) (hv : now.Valid) (hy : (addDays now days).y ≤ 9999) :
    is_slot_available s L now days = false := by
  unfold is_slot_available
  rw [hp]
  dsimp only
  split_ifs with h1 h2 h3
  all_goals try rfl
  rw [decide_eq_false_iff_not]
  intro hs
  obtain ⟨offset, hoff, -, i, hi, -, hse, -⟩ := mem_generate_elim hs
  set day := addDays now offset with hday
  have hvdt : (combine day (8 + i)).Valid :=
    valid_combine day (valid_addDays now hv offset) (by omega)
  have hydt : (combine day (8 + i)).y ≤ 9999 :=
    le_trans (y_addDays_mono now (le_of_lt hoff)) hy
  have hps : parseSlot s = some (combine day (8 + i)) := by
    rw [hse]
    exact parseSlot_fmtSlot _ hvdt hydt
  rw [hp] at hps
  have hmm0 : dt.mm = 0 := by
    have he := Option.some.inj hps
    rw [he]
    rfl
  exact hm hmm0

/-- C2: `book_slot` returns failure without mutating the ledger when the
entry has no (string) slot or the slot fails `is_slot_available`, and on an
available slot appends exactly the given entry augmented with the server
timestamp and returns success. -/
theorem book_slot_validates_and_appends (e : Entry) (L : Ledger)
    (now : DateTime) (ts : Str) :
    (e.slot = none → book_slot e L now ts = (false, L)) ∧
    (∀ s, e.slot = some s → is_slot_available s L now 14 = false →
        book_slot e L now ts = (false, L)) ∧
    (∀ s, e.slot = some s → is_slot_available s L now 14 = true →
        book_slot e L now ts = (true, L ++ [{ e with logged_at := some ts }])) := by
  refine ⟨?_, ?_, ?_⟩
  · intro h
    simp [book_slot, h]
  · intro s h hna
    simp [book_slot, bookCheck, h, hna]
  · intro s h ha
    simp [book_slot, bookCheck, bookAppendPhase, append_meeting, h, ha]

/-- C8: once the history exceeds 24 entries, the trimming step keeps
exactly 24: the original first entry followed by the 23 most recent
entries, in order. -/
theorem trim_keeps_first_and_recent (h : List Msg) (hl : 24 < h.length) :
    (trimHistory h).length = 24 ∧
    (trimHistory h).head? = h.head? ∧
    (trimHistory h).tail = h.drop (h.length - 23) ∧
    (h.drop (h.length - 23)).length = 23 := by
  match h with
  | [] => simp at hl
  | a :: t =>
    have hdl : ((a :: t).drop ((a :: t).length - 23)).length = 23 := by
      rw [List.length_drop]
      simp only [List.length_cons]
      simp only [List.length_cons] at hl
      omega
    unfold trimHistory
    rw [if_pos hl]
    refine ⟨?_, rfl, rfl, hdl⟩
    show ((a :: t).drop ((a :: t).length - 23)).length + 1 = 24
    rw [hdl]

/-- C9 counterexample: a ledger file whose bytes are not valid UTF-8 makes
the read inside `json.load` raise `UnicodeDecodeError`, which
`except (json.JSONDecodeError, OSError)` does not catch — at this file
state `load_meetings` propagates the decode error instead of returning the
empty list, refuting the claim as stated. -/
theorem load_meetings_propagates_unicode_error :
    load_meetings_file none (some (Except.error PyExc.unicodeDecodeError))
        jloadBad = Except.error PyExc.unicodeDecodeError ∧
    load_meetings_file none (some (Except.error PyExc.unicodeDecodeError))
        jloadBad ≠ Except.ok [] := by
  refine ⟨rfl, ?_⟩
  intro h
  exact Except.noConfusion h

/-- C9 (amended): `load_meetings` returns the empty list, raising nothing,
when the file is absent (and the log-directory creation succeeds), when
open/read fails with `OSError`, when JSON parsing fails with
`JSONDecodeError` (an empty file included), or when the parse yields a
non-list; a parsed list is returned as-is.  But a file whose bytes do not
decode as UTF-8 propagates `UnicodeDecodeError`, and JSON nested deeply
enough propagates `RecursionError`, to the caller. -/
theorem load_meetings_caught_and_uncaught (mkdirResult : Option PyExc)
    (file : Option (Except PyExc Str)) (jload : Str → Except PyExc Json) :
    (mkdirResult = none → file = none →
        load_meetings_file mkdirResult file jload = Except.ok []) ∧
    (file = some (Except.error PyExc.osError) →
        load_meetings_file mkdirResult file jload = Except.ok []) ∧
    (∀ s, file = some (Except.ok s) →
        jload s = Except.error PyExc.jsonDecodeError →
        load_meetings_file mkdirResult file jload = Except.ok []) ∧
    (∀ s v, file = some (Except.ok s) → jload s = Except.ok v →
        (∀ xs, v ≠ Json.arr xs) →
        load_meetings_file mkdirResult file jload = Except.ok []) ∧
    (∀ s xs, file = some (Except.ok s) → jload s = Except.ok (Json.arr xs) →
        load_meetings_file mkdirResult file jload = Except.ok xs) ∧
    (file = some (Except.error PyExc.unicodeDecodeError) →
        load_meetings_file mkdirResult file jload =
          Except.error PyExc.unicodeDecodeError) ∧
    (∀ s, file = some (Except.ok s) →
        jload s = Except.error PyExc.recursionError →
        load_meetings_file mkdirResult file jload =
          Except.error PyExc.recursionError) := by
  refine ⟨?_, ?_, ?_, ?_, ?_, ?_, ?_⟩
  · intro hm hf
    rw [hf, hm]
    rfl
  · intro hf
    rw [hf]
    rfl
  · intro s hf hj
    rw [hf]
    simp [load_meetings_file, hj, caughtByLoad]
  · intro s v hf hj hne
    rw [hf]
    match v with
    | Json.arr xs => exact absurd rfl (hne xs)
    | Json.null | Json.bool _ | Json.num _ | Json.str _ | Json.obj _ =>
      simp [load_meetings_file, hj]
  · intro s xs hf hj
    rw [hf]
    simp [load_meetings_file, hj]
  · intro hf
    rw [hf]
    rfl
  · intro s hf hj
    rw [hf]
    simp [load_meetings_file, hj, caughtByLoad]

/-- C7: with a (nonempty) scheduled slot already recorded on the session,
the natural-language fallback path is a no-op: the reply text, the session
(including its scheduled slot) and the ledger pass through unchanged. -/
theorem fallback_skipped_when_scheduled (original text : Str) (sess : Session)
    (L : Ledger) (call_sid : Str) (now : DateTime) (ts : Str) (s : Str)
    (hset : sess.scheduled_slot = some s) (hne : s ≠ []) :
    fallback_stage original text sess L call_sid now ts = (text, sess, L) := by
  have hf : sessSlotFalsy sess = false := by
    unfold sessSlotFalsy
    rw [hset]
    match s, hne with
    | c :: cs, _ => rfl
    | [], hne => exact absurd rfl hne
  simp [fallback_stage, hf]

theorem fallback_guess_endMarker (now : DateTime) :
    fallback_slot_guess endMarker now = none := rfl

theorem fallback_stage_of_guess_none {original : Str} {now : DateTime}
    (text : Str) (sess : Session) (L : Ledger) (c ts : Str)
    (hg : fallback_slot_guess original now = none) :
    fallback_stage original text sess L c now ts = (text, sess, L) := by
  unfold fallback_stage
  cases hb : sessSlotFalsy sess
  · simp [hb]
  · simp [hb, hg]

theorem subBooked_endMarker {σ : Type} (h : Str → σ → Option Str × σ)
    (st : σ) : subBooked h endMarker st = (some endMarker, st) := rfl

theorem sessSlotFalsy_of_none {sess : Session}
    (h : sess.scheduled_slot = none) : sessSlotFalsy sess = true := by
  unfold sessSlotFalsy
  rw [h]

theorem guard_end_only (sess : Session) (h : sessSlotFalsy sess = true) :
    end_call_guard sess endMarker = [] := by
  have h1 : containsSub endMarker endMarker = true := rfl
  have h2 : containsSub ("[[BOOKED".toList) endMarker = false := rfl
  have h3 : containsSub ("[[CALLBACK_NEEDED".toList) endMarker = false := rfl
  have h4 : containsSub ("[[SEND_INFO".toList) endMarker = false := rfl
  simp [end_call_guard, h, h1, h2, h3, h4]
  rfl

/-- C6: a reply consisting of nothing but `[[END_CALL]]`, on a session
without a scheduled slot, does not end the call: the processed text is
emptied of the marker (indeed empty), the end flag is false, and what is
spoken to the caller carries no end marker. -/
theorem end_call_alone_not_ending (sess : Session) (L : Ledger)
    (call_sid : Str) (now : DateTime) (ts : Str) (jloads : Str → Option Json)
    (h : sess.scheduled_slot = none) :
    (process_reply endMarker sess L call_sid now ts jloads).shouldEnd = false ∧
    (process_reply endMarker sess L call_sid now ts jloads).text = [] ∧
    containsSub endMarker
      (process_reply endMarker sess L call_sid now ts jloads).spoken = false := by
  have hfal : sessSlotFalsy { sess with history := trimHistory sess.history } = true :=
    sessSlotFalsy_of_none h
  have hval : process_reply endMarker sess L call_sid now ts jloads =
      ⟨[], { sess with history := trimHistory sess.history }, L, false, stillHereLine⟩ := by
    simp only [process_reply, subBooked_endMarker,
      fallback_stage_of_guess_none _ sess L call_sid ts (fallback_guess_endMarker now)]
    rw [guard_end_only _ hfal]
    rfl
  rw [hval]
  exact ⟨rfl, rfl, rfl⟩

/-- C3: the pipeline strips only `[[BOOKED {...}]]` and `[[END_CALL]]`
markup; a reply carrying the documented `[[CALLBACK_NEEDED {...}]]` tag
passes through unchanged, and the literal bracket markup is spoken to the
caller. -/
theorem callback_tag_leaks_to_spoken_text :
    (process_reply cbReply sessEmpty [] ("CA1".toList) now0 tsA jlNone).text
        = cbReply ∧
    containsSub ("[[CALLBACK_NEEDED".toList)
      ((process_reply cbReply sessEmpty [] ("CA1".toList) now0 tsA jlNone).spoken)
        = true ∧
    containsSub ("[[".toList)
      ((process_reply cbReply sessEmpty [] ("CA1".toList) now0 tsA jlNone).spoken)
        = true := by
  exact ⟨rfl, rfl, rfl⟩

/-- C1: `book_slot`'s check and append phases are not atomic: with an
empty ledger, the availability check of each of two interleaved calls for
`slotA` reads the still-empty ledger and passes, both calls append, and the
ledger ends with two entries for the same slot — afterwards the slot is
reported unavailable, showing the second check would have failed had the
calls been serialized. -/
theorem booking_race_both_succeed :
    book_slot entA [] now0 tsA = (true, bookAppendPhase entA tsA []) ∧
    bookCheck slotA [] now0 = true ∧
    (get_booked_slots (bookAppendPhase entA tsB (bookAppendPhase entA tsA []))).count
        slotA = 2 ∧
    is_slot_available slotA (bookAppendPhase entA tsA []) now0 14 = false := by
  exact ⟨rfl, rfl, rfl, rfl⟩

theorem book_slot_validates_and_appends_witness :
    book_slot entA [] now0 tsA = (true, [] ++ [{ entA with logged_at := some tsA }]) :=
  (book_slot_validates_and_appends entA [] now0 tsA).2.2 slotA rfl rfl

theorem generate_slots_in_window_witness :
    now0.Valid ∧ (addDays now0 14).y ≤ 9999 ∧
    ("2026-10-12 11:00".toList) ∈ generate_available_slots [] 14 now0 ∧
    (∃ dt : DateTime, parseSlot ("2026-10-12 11:00".toList) = some dt ∧
      weekday dt ∈ allowedWeekdays ∧ 8 ≤ dt.hh ∧ dt.hh ≤ 15 ∧ dtLt now0 dt ∧
      ∃ offset, offset < 14 ∧ dt.y = (addDays now0 offset).y ∧
        dt.m = (addDays now0 offset).m ∧ dt.d = (addDays now0 offset).d) :=
  ⟨by decide, by decide, by decide,
    generate_slots_in_window [] 14 now0 (by decide) (by decide) _ (by decide)⟩

theorem generate_excludes_booked_witness :
    ("2026-10-12 11:00".toList) ∈
        generate_available_slots [("2026-10-12 12:00".toList)] 14 now0 ∧
    ("2026-10-12 11:00".toList) ∉ [("2026-10-12 12:00".toList)] :=
  ⟨by decide,
    generate_excludes_booked [("2026-10-12 12:00".toList)] 14 now0
      ("2026-10-12 11:00".toList) (by decide)⟩

theorem end_call_alone_not_ending_witness :
    sessEmpty.scheduled_slot = none ∧
    ((process_reply endMarker sessEmpty [] ("CA1".toList) now0 tsA jlNone).shouldEnd
        = false ∧
     (process_reply endMarker sessEmpty [] ("CA1".toList) now0 tsA jlNone).text = [] ∧
     containsSub endMarker
       (process_reply endMarker sessEmpty [] ("CA1".toList) now0 tsA jlNone).spoken
        = false) :=
  ⟨rfl, end_call_alone_not_ending sessEmpty [] ("CA1".toList) now0 tsA jlNone rfl⟩

theorem fallback_skipped_when_scheduled_witness :
    sessScheduled.scheduled_slot = some ("2026-10-13 09:00".toList) ∧
    ("2026-10-13 09:00".toList) ≠ ([] : Str) ∧
    fallback_stage nlReply nlReply sessScheduled [] ("CA1".toList) now0 tsA =
      (nlReply, sessScheduled, []) :=
  ⟨rfl, by decide,
    fallback_skipped_when_scheduled nlReply nlReply sessScheduled []
      ("CA1".toList) now0 tsA ("2026-10-13 09:00".toList) rfl (by decide)⟩

theorem trim_keeps_first_and_recent_witness :
    24 < hist30.length ∧
    ((trimHistory hist30).length = 24 ∧
     (trimHistory hist30).head? = hist30.head? ∧
     (trimHistory hist30).tail = hist30.drop (hist30.length - 23) ∧
     (hist30.drop (hist30.length - 23)).length = 23) :=
  ⟨by decide, trim_keeps_first_and_recent hist30 (by decide)⟩

theorem load_meetings_caught_and_uncaught_witness :
    jloadBad ("\x7b".toList) = Except.error PyExc.jsonDecodeError ∧
    load_meetings_file none (some (Except.ok ("\x7b".toList))) jloadBad =
      Except.ok [] :=
  ⟨rfl,
    (load_meetings_caught_and_uncaught none (some (Except.ok ("\x7b".toList)))
        jloadBad).2.2.1 ("\x7b".toList) rfl rfl⟩

theorem off_hour_minutes_unavailable_witness :
    parseSlot ("2026-10-13 09:30".toList) = some ⟨2026, 10, 13, 9, 30⟩ ∧
    (⟨2026, 10, 13, 9, 30⟩ : DateTime).mm ≠ 0 ∧
    is_slot_available ("2026-10-13 09:30".toList) [] now0 14 = false :=
  ⟨rfl, by decide,
    off_hour_minutes_unavailable ("2026-10-13 09:30".toList) [] now0 14
      ⟨2026, 10, 13, 9, 30⟩ rfl (by decide) (by decide) (by decide)⟩

end Lemmas

end Callflow
